import Mathlib

/-!
Shallow embedding of `src/src/lib.rs` (crate `ws-queue-web`): a WebSocket
client facade with a reentrancy-safe handler cell (`HandlerCell`), a FIFO
pending queue for messages, a single-slot error cell, and four DOM event
listeners (open / message / error / close).

Modelling decisions:
* `JsValue` error payloads are opaque; they are modelled as `Nat` (`ErrVal`).
  Raw DOM events carry the `ErrVal` their `.into()` conversion would produce.
* `RefCell` borrows on the handler cell are modelled by an explicit
  `borrowed` flag; `borrow_mut` on an already-borrowed cell is a panic,
  modelled by setting the `crashed` flag of the client state (after which
  every operation is a no-op, mirroring an unwound program).
* User-supplied handler closures (`Box<dyn FnMut(T)>`) are external code; we
  model the behaviours the specification quantifies over: a handler that
  just records its argument (`plain`), and a handler that records its
  argument and then re-entrantly calls the corresponding setter with a new
  plain handler or `None` (`replacer`). Deliveries are recorded in
  per-channel logs in invocation order.
* The mutually recursive call web (handler invocation ↔ setter ↔ drain
  loop) is expressed as one fuel-indexed interpreter `exec`; `none` means
  fuel ran out, never a program behaviour. Sufficiency lemmas discharge the
  fuel in every theorem.
-/

namespace WsQueueWeb

/-- Model of `Message` from lib.rs lines 20-23: `Text(String) | Binary(Box<[u8]>)`.
Bytes are modelled as `List Nat`. -/
inductive Message
  | text (s : String)
  | binary (b : List Nat)
deriving DecidableEq

/-- Opaque stand-in for `JsValue` error payloads. -/
abbrev ErrVal := Nat

/-- Model of a user-supplied message handler closure: `plain i` records its
argument in the delivery log under id `i`; `replacer i r` records its
argument and then re-entrantly calls `set_onmessage` with
`r.map MsgHandler.plain`. -/
inductive MsgHandler
  | plain (i : Nat)
  | replacer (i : Nat) (repl : Option Nat)
deriving DecidableEq

/-- The log id of a message handler. -/
def MsgHandler.hid : MsgHandler → Nat
  | .plain i => i
  | .replacer i _ => i

/-- Model of a user-supplied error handler closure, analogous to
`MsgHandler`: `replacer` re-entrantly calls `set_onerror`. -/
inductive ErrHandler
  | plain (i : Nat)
  | replacer (i : Nat) (repl : Option Nat)
deriving DecidableEq

/-- The log id of an error handler. -/
def ErrHandler.hid : ErrHandler → Nat
  | .plain i => i
  | .replacer i _ => i

/-- Model of `HandlerCell<T>` from lib.rs lines 25-58:
`function: RefCell<Handler<T>>` with its borrow flag made explicit, and
`replacement: RefCell<Option<Handler<T>>>`. -/
structure HCell (H : Type) where
  function : Option H
  borrowed : Bool
  replacement : Option (Option H)
deriving DecidableEq

/-- Model of `HandlerCell::new` (lib.rs 34-39): empty cell, nothing borrowed. -/
def HCell.mkNew {H : Type} : HCell H := ⟨none, false, none⟩

/-- Model of `HandlerCell::replace` (lib.rs 46-57): `try_borrow_mut` succeeds iff the
function slot is not currently borrowed; on success the handler is swapped
in and `true` is returned, otherwise the new handler is parked in
`replacement` and `false` is returned. -/
def HCell.replaceImpl {H : Type} (c : HCell H) (newHandler : Option H) :
    HCell H × Bool :=
  if c.borrowed then ({ c with replacement := some newHandler }, false)
  else ({ c with function := newHandler }, true)

/-- Model of `HandlerCell::borrow_mut` (lib.rs 40-45): takes the `RefMut` on
`function`; `none` models the `BorrowMutError` panic when the slot is
already borrowed. -/
def HCell.takeBorrow {H : Type} (c : HCell H) : Option (HCell H) :=
  if c.borrowed then none else some { c with borrowed := true }

/-- Model of `Drop for HandlerRef` (lib.rs 71-77): releasing the borrow applies a
pending replacement, if any, to the function slot. -/
def HCell.dropBorrow {H : Type} (c : HCell H) : HCell H :=
  match c.replacement with
  | some r => { function := r, borrowed := false, replacement := none }
  | none => { c with borrowed := false }

/-- State of a `WebSocketClient` (lib.rs 79-89) together with the
observation logs the theorems read off.
`initMsg` is the `init_message` captured at construction (it decides
whether an open listener was subscribed, lib.rs 103), `queue` is the
message `VecDeque`, `errorLatch` is the `error: Option<JsValue>` cell,
`sent` records every payload handed to `WebSocket::send`, `msgLog` /
`errLog` record handler deliveries as (handler id, value) in order, and
`crashed` records a `RefCell` borrow panic. -/
structure ClientState where
  initMsg : Option Message
  queue : List Message
  errorLatch : Option ErrVal
  on_message : HCell MsgHandler
  on_error : HCell ErrHandler
  msgLog : List (Nat × Message)
  errLog : List (Nat × ErrVal)
  sent : List Message
  crashed : Bool
deriving DecidableEq

/-- Model of `WebSocketClient::new` (lib.rs 91-200), state part: empty queue, empty
error cell, empty handler cells. The four listeners are modelled as the
event functions below; the open listener exists iff `initMsg.isSome`. -/
def WebSocketClient.new (initMessage : Option Message) : ClientState :=
  { initMsg := initMessage
    queue := []
    errorLatch := none
    on_message := HCell.mkNew
    on_error := HCell.mkNew
    msgLog := []
    errLog := []
    sent := []
    crashed := false }

/-- Dropping the `HandlerRef` on the message cell at the end of a statement
or loop iteration. -/
def dropMsgRef (s : ClientState) : ClientState :=
  { s with on_message := s.on_message.dropBorrow }

/-- Dropping the `HandlerRef` on the error cell at the end of a statement. -/
def dropErrRef (s : ClientState) : ClientState :=
  { s with on_error := s.on_error.dropBorrow }

/-- Entry points of the mutually recursive core: invoking a message/error
handler, the two setters, and the drain loop inside `set_onmessage`. -/
inductive CoreCall
  | invMsg (h : MsgHandler) (m : Message)
  | setMsg (nh : Option MsgHandler)
  | drain
  | invErr (h : ErrHandler) (e : ErrVal)
  | setErr (nh : Option ErrHandler)

/-- Fuel-indexed interpreter for the mutually recursive core.
* `.invMsg h m` / `.invErr h e`: running a user handler closure — append to
  the delivery log, then (for `replacer`) re-entrantly call the setter.
* `.setMsg nh`: `WebSocketClient::set_onmessage` (lib.rs 208-216) —
  `HandlerCell::replace`, and only when it returns `true`, the drain loop.
* `.drain`: the `while let` loop of `set_onmessage` (lib.rs 210-214) — each
  iteration takes the borrow, checks the function slot, pops the queue
  front, invokes the handler, and drops the borrow (applying a deferred
  replacement) before the next iteration.
* `.setErr nh`: `WebSocketClient::set_onerror` (lib.rs 218-225) —
  `HandlerCell::replace`, then unconditionally `borrow_mut` (a panic if the
  call is re-entrant), and if a handler is present and an error is latched,
  take it and deliver it; the borrow is dropped at the end of the `if let`
  statement.
`none` means fuel ran out. -/
def exec : Nat → ClientState → CoreCall → Option ClientState
  | 0, _, _ => none
  | fuel + 1, s, c =>
    if s.crashed then some s else
    match c with
    | .invMsg h m =>
      let s1 := { s with msgLog := s.msgLog ++ [(h.hid, m)] }
      match h with
      | .plain _ => some s1
      | .replacer _ repl => exec fuel s1 (.setMsg (repl.map MsgHandler.plain))
    | .setMsg nh =>
      let rb := s.on_message.replaceImpl nh
      let s1 := { s with on_message := rb.1 }
      if rb.2 then exec fuel s1 .drain else some s1
    | .drain =>
      match s.on_message.takeBorrow with
      | none => some { s with crashed := true }
      | some c1 =>
        let s1 := { s with on_message := c1 }
        match c1.function with
        | none => some (dropMsgRef s1)
        | some h =>
          match s1.queue with
          | [] => some (dropMsgRef s1)
          | m :: rest =>
            match exec fuel { s1 with queue := rest } (.invMsg h m) with
            | none => none
            | some s2 => exec fuel (dropMsgRef s2) .drain
    | .invErr h e =>
      let s1 := { s with errLog := s.errLog ++ [(h.hid, e)] }
      match h with
      | .plain _ => some s1
      | .replacer _ repl => exec fuel s1 (.setErr (repl.map ErrHandler.plain))
    | .setErr nh =>
      let rb := s.on_error.replaceImpl nh
      let s1 := { s with on_error := rb.1 }
      match s1.on_error.takeBorrow with
      | none => some { s1 with crashed := true }
      | some c1 =>
        let s2 := { s1 with on_error := c1 }
        match c1.function with
        | none => some (dropErrRef s2)
        | some h =>
          match s2.errorLatch with
          | none => some (dropErrRef s2)
          | some e =>
            match exec fuel { s2 with errorLatch := none } (.invErr h e) with
            | none => none
            | some s3 => some (dropErrRef s3)

/-- Invoking a message handler closure with a value. -/
def invokeMsg (fuel : Nat) (s : ClientState) (h : MsgHandler) (m : Message) :
    Option ClientState :=
  exec fuel s (.invMsg h m)

/-- Wrapper for `WebSocketClient::set_onmessage` (lib.rs 208-216). -/
def set_onmessage (fuel : Nat) (s : ClientState) (nh : Option MsgHandler) :
    Option ClientState :=
  exec fuel s (.setMsg nh)

/-- The `while let` drain loop of `set_onmessage` (lib.rs 210-214). -/
def drainLoop (fuel : Nat) (s : ClientState) : Option ClientState :=
  exec fuel s .drain

/-- Invoking an error handler closure with a value. -/
def invokeErr (fuel : Nat) (s : ClientState) (h : ErrHandler) (e : ErrVal) :
    Option ClientState :=
  exec fuel s (.invErr h e)

/-- Wrapper for `WebSocketClient::set_onerror` (lib.rs 218-225). -/
def set_onerror (fuel : Nat) (s : ClientState) (nh : Option ErrHandler) :
    Option ClientState :=
  exec fuel s (.setErr nh)

/-- Raw payload of a DOM message event: what `msg.data().dyn_into()`
distinguishes — an `ArrayBuffer`, a `JsString`, or anything else. -/
inductive RawData
  | arrayBuffer (bytes : List Nat)
  | jsString (s : String)
  | other
deriving DecidableEq

/-- The translation step of the message listener (lib.rs 132-140):
`ArrayBuffer` → `Message::Binary`, `JsString` → `Message::Text`, anything
else → bail (`none`). -/
def dataToMessage : RawData → Option Message
  | .arrayBuffer b => some (Message.binary b)
  | .jsString t => some (Message.text t)
  | .other => none

/-- The "message" event listener (lib.rs 124-147): take the borrow on the
message cell, translate the payload (bailing silently on an unrecognized
shape), then either invoke the installed handler or push onto the queue;
the borrow is dropped on every exit path. -/
def onMessageEvent (fuel : Nat) (s : ClientState) (d : RawData) :
    Option ClientState :=
  if s.crashed then some s else
  match s.on_message.takeBorrow with
  | none => some { s with crashed := true }
  | some c1 =>
    let s1 := { s with on_message := c1 }
    match dataToMessage d with
    | none => some (dropMsgRef s1)
    | some m =>
      match c1.function with
      | some h =>
        match invokeMsg fuel s1 h m with
        | none => none
        | some s2 => some (dropMsgRef s2)
      | none => some (dropMsgRef { s1 with queue := s1.queue ++ [m] })

/-- The "error" event listener (lib.rs 148-159): take the borrow on the
error cell, then invoke the installed handler, or else overwrite the error
cell (`*on_error_cell.borrow_mut() = Some(error.into())`). -/
def onErrorEvent (fuel : Nat) (s : ClientState) (e : ErrVal) :
    Option ClientState :=
  if s.crashed then some s else
  match s.on_error.takeBorrow with
  | none => some { s with crashed := true }
  | some c1 =>
    let s1 := { s with on_error := c1 }
    match c1.function with
    | some h =>
      match invokeErr fuel s1 h e with
      | none => none
      | some s2 => some (dropErrRef s2)
    | none => some (dropErrRef { s1 with errorLatch := some e })

/-- Raw payload of a DOM close event: either an actual `CloseEvent`
(carrying `was_clean`, `reason`, and the `ErrVal` its `.into()` produces)
or some other event (only its `ErrVal` conversion matters). -/
inductive RawCloseEvent
  | closeEvent (wasClean : Bool) (reason : String) (asError : ErrVal)
  | otherEvent (asError : ErrVal)
deriving DecidableEq

/-- The error arm of the close listener, shared verbatim by the
unclean-close and not-a-CloseEvent branches (lib.rs 176-191). -/
def routeCloseError (fuel : Nat) (s : ClientState) (e : ErrVal) :
    Option ClientState :=
  match s.on_error.takeBorrow with
  | none => some { s with crashed := true }
  | some c1 =>
    let s1 := { s with on_error := c1 }
    match c1.function with
    | some h =>
      match invokeErr fuel s1 h e with
      | none => none
      | some s2 => some (dropErrRef s2)
    | none => some (dropErrRef { s1 with errorLatch := some e })

/-- The message arm of the close listener (lib.rs 168-175): take the
borrow on the message cell, then invoke the installed handler or push onto
the queue. -/
def routeMessage (fuel : Nat) (s : ClientState) (m : Message) :
    Option ClientState :=
  match s.on_message.takeBorrow with
  | none => some { s with crashed := true }
  | some c1 =>
    let s1 := { s with on_message := c1 }
    match c1.function with
    | some h =>
      match invokeMsg fuel s1 h m with
      | none => none
      | some s2 => some (dropMsgRef s2)
    | none => some (dropMsgRef { s1 with queue := s1.queue ++ [m] })

/-- The "close" event listener (lib.rs 160-194): a clean close is routed
through the message path as `Message::Text(reason)`, an unclean close or a
non-`CloseEvent` payload through the error path. -/
def onCloseEvent (fuel : Nat) (s : ClientState) (ev : RawCloseEvent) :
    Option ClientState :=
  if s.crashed then some s else
  match ev with
  | .closeEvent true reason _ => routeMessage fuel s (Message.text reason)
  | .closeEvent false _ e => routeCloseError fuel s e
  | .otherEvent e => routeCloseError fuel s e

/-- The "open" event listener (lib.rs 101-123). It exists only when
`init_message` was supplied; it takes the borrow on the error cell, hands
the init message to the transport (recorded in `sent`), and routes a
synchronous send failure (`sendResult = some err`, an environment input)
through the installed error handler or else overwrites the error cell
(`Option::replace`). -/
def onOpenEvent (fuel : Nat) (s : ClientState) (sendResult : Option ErrVal) :
    Option ClientState :=
  if s.crashed then some s else
  match s.initMsg with
  | none => some s
  | some m =>
    match s.on_error.takeBorrow with
    | none => some { s with crashed := true }
    | some c1 =>
      let s1 := { s with on_error := c1, sent := s.sent ++ [m] }
      match sendResult with
      | none => some (dropErrRef s1)
      | some err =>
        match c1.function with
        | some h =>
          match invokeErr fuel s1 h err with
          | none => none
          | some s2 => some (dropErrRef s2)
        | none => some (dropErrRef { s1 with errorLatch := some err })

/-- Model of `WebSocketClient::report_error` (lib.rs 227-233): `borrow_mut` on the
error cell, invoke the handler if present, else `Option::replace` the
error cell (overwriting). -/
def report_error (fuel : Nat) (s : ClientState) (err : ErrVal) :
    Option ClientState :=
  if s.crashed then some s else
  match s.on_error.takeBorrow with
  | none => some { s with crashed := true }
  | some c1 =>
    let s1 := { s with on_error := c1 }
    match c1.function with
    | some h =>
      match invokeErr fuel s1 h err with
      | none => none
      | some s2 => some (dropErrRef s2)
    | none => some (dropErrRef { s1 with errorLatch := some err })

/-- Model of `WebSocketClient::send` (lib.rs 202-206): hand the payload to the
transport (recorded in `sent`); a synchronous failure (`sendResult`) goes
through `report_error`. -/
def clientSend (fuel : Nat) (s : ClientState) (payload : String)
    (sendResult : Option ErrVal) : Option ClientState :=
  if s.crashed then some s else
  let s1 := { s with sent := s.sent ++ [Message.text payload] }
  match sendResult with
  | none => some s1
  | some err => report_error fuel s1 err

/-- Feeding a list of raw message events one after another. -/
def feedMessages (fuel : Nat) (s : ClientState) : List RawData → Option ClientState
  | [] => some s
  | d :: ds =>
    match onMessageEvent fuel s d with
    | none => none
    | some s1 => feedMessages fuel s1 ds

/-- The raw event whose translation is a given message. -/
def msgToRaw : Message → RawData
  | .text t => .jsString t
  | .binary b => .arrayBuffer b

/-- One interaction with the client: an external transport event (with the
environment's choice of payload / send outcome) or a public API call. -/
inductive OpInput
  | openEv (sendResult : Option ErrVal)
  | msgEv (d : RawData)
  | errEv (e : ErrVal)
  | closeEv (ev : RawCloseEvent)
  | setMsg (nh : Option MsgHandler)
  | setErr (nh : Option ErrHandler)
  | sendOp (payload : String) (sendResult : Option ErrVal)

/-- Interpretation of one interaction. -/
def applyOp (fuel : Nat) (s : ClientState) : OpInput → Option ClientState
  | .openEv r => onOpenEvent fuel s r
  | .msgEv d => onMessageEvent fuel s d
  | .errEv e => onErrorEvent fuel s e
  | .closeEv ev => onCloseEvent fuel s ev
  | .setMsg nh => set_onmessage fuel s nh
  | .setErr nh => set_onerror fuel s nh
  | .sendOp p r => clientSend fuel s p r

/-- The states a client can be in between interactions: freshly
constructed, or the completed result of one more interaction. -/
inductive Reachable : ClientState → Prop
  | init (im : Option Message) : Reachable (WebSocketClient.new im)
  | step {s s' : ClientState} (fuel : Nat) (op : OpInput) :
      Reachable s → applyOp fuel s op = some s' → Reachable s'

/-- Whether a core call belongs to the message side (handler invocation,
setter, drain) — these never touch the error-side state. -/
def CoreCall.msgSide : CoreCall → Bool
  | .invMsg _ _ => true
  | .setMsg _ => true
  | .drain => true
  | .invErr _ _ => false
  | .setErr _ => false

/-- The error-side state components, untouched by message-side calls. -/
def PresErr (s s' : ClientState) : Prop :=
  s'.errorLatch = s.errorLatch ∧ s'.on_error = s.on_error ∧
    s'.errLog = s.errLog ∧ s'.sent = s.sent ∧ s'.initMsg = s.initMsg

/-- The message-side state components, untouched by error-side calls. -/
def PresMsg (s s' : ClientState) : Prop :=
  s'.queue = s.queue ∧ s'.on_message = s.on_message ∧
    s'.msgLog = s.msgLog ∧ s'.sent = s.sent ∧ s'.initMsg = s.initMsg

/-- A handler cell as it must look between interactions: borrow released
and no deferred replacement parked. -/
def GoodCell {H : Type} (c : HCell H) : Prop :=
  c.borrowed = false ∧ c.replacement = none

/-- The client invariant at quiescent states: unless a borrow panic
occurred, both cells are quiescent and a queue can only be non-empty while
no message handler is installed. -/
def Inv (s : ClientState) : Prop :=
  s.crashed = false →
    GoodCell s.on_message ∧ GoodCell s.on_error ∧
      (∀ h, s.on_message.function = some h → s.queue = [])

end WsQueueWeb

namespace WsQueueWeb

theorem presErr_refl (s : ClientState) : PresErr s s := ⟨rfl, rfl, rfl, rfl, rfl⟩

theorem presErr_trans {a b c : ClientState} (h1 : PresErr a b) (h2 : PresErr b c) :
    PresErr a c := by
  obtain ⟨x1, x2, x3, x4, x5⟩ := h1
  obtain ⟨y1, y2, y3, y4, y5⟩ := h2
  exact ⟨y1.trans x1, y2.trans x2, y3.trans x3, y4.trans x4, y5.trans x5⟩

theorem exec_msgSide_presErr : ∀ (f : Nat) (s : ClientState) (c : CoreCall),
    c.msgSide = true → ∀ s', exec f s c = some s' → PresErr s s' := by
  intro f
  induction f with
  | zero => intro s c _ s' h; simp [exec] at h
  | succ f ih =>
    intro s c hc s' h
    simp only [exec] at h
    split at h
    · injection h with h; subst h; exact presErr_refl s
    · split at h
      · -- invMsg
        split at h
        · injection h with h; subst h; exact ⟨rfl, rfl, rfl, rfl, rfl⟩
        · rename_i hd m i repl
          have p2 := ih _ (.setMsg (repl.map MsgHandler.plain)) rfl _ h
          refine presErr_trans ?_ p2
          exact ⟨rfl, rfl, rfl, rfl, rfl⟩
      · -- setMsg
        split at h
        · have p2 := ih _ .drain rfl _ h
          refine presErr_trans ?_ p2
          exact ⟨rfl, rfl, rfl, rfl, rfl⟩
        · injection h with h; subst h; exact ⟨rfl, rfl, rfl, rfl, rfl⟩
      · -- drain
        split at h
        · injection h with h; subst h; exact ⟨rfl, rfl, rfl, rfl, rfl⟩
        · rename_i c1 heq1
          split at h
          · injection h with h; subst h; exact ⟨rfl, rfl, rfl, rfl, rfl⟩
          · rename_i hd hf
            split at h
            · injection h with h; subst h; exact ⟨rfl, rfl, rfl, rfl, rfl⟩
            · rename_i m rest hq
              split at h
              · exact Option.noConfusion h
              · rename_i s2 heq2
                have q2 := ih _ (.invMsg hd m) rfl _ heq2
                have q4 := ih _ .drain rfl _ h
                refine presErr_trans (presErr_trans (presErr_trans ?_ q2) ?_) q4
                · exact ⟨rfl, rfl, rfl, rfl, rfl⟩
                · exact ⟨rfl, rfl, rfl, rfl, rfl⟩
      · -- invErr: ruled out
        simp [CoreCall.msgSide] at hc
      · -- setErr: ruled out
        simp [CoreCall.msgSide] at hc

theorem presMsg_refl (s : ClientState) : PresMsg s s := ⟨rfl, rfl, rfl, rfl, rfl⟩

theorem presMsg_trans {a b c : ClientState} (h1 : PresMsg a b) (h2 : PresMsg b c) :
    PresMsg a c := by
  obtain ⟨x1, x2, x3, x4, x5⟩ := h1
  obtain ⟨y1, y2, y3, y4, y5⟩ := h2
  exact ⟨y1.trans x1, y2.trans x2, y3.trans x3, y4.trans x4, y5.trans x5⟩

theorem exec_errSide_presMsg : ∀ (f : Nat) (s : ClientState) (c : CoreCall),
    c.msgSide = false → ∀ s', exec f s c = some s' → PresMsg s s' := by
  intro f
  induction f with
  | zero => intro s c _ s' h; simp [exec] at h
  | succ f ih =>
    intro s c hc s' h
    simp only [exec] at h
    split at h
    · injection h with h; subst h; exact presMsg_refl s
    · split at h
      · simp [CoreCall.msgSide] at hc
      · simp [CoreCall.msgSide] at hc
      · simp [CoreCall.msgSide] at hc
      · -- invErr
        split at h
        · injection h with h; subst h; exact ⟨rfl, rfl, rfl, rfl, rfl⟩
        · rename_i hd e i repl
          have p2 := ih _ (.setErr (repl.map ErrHandler.plain)) rfl _ h
          refine presMsg_trans ?_ p2
          exact ⟨rfl, rfl, rfl, rfl, rfl⟩
      · -- setErr
        split at h
        · injection h with h; subst h; exact ⟨rfl, rfl, rfl, rfl, rfl⟩
        · rename_i c1 heq1
          split at h
          · injection h with h; subst h; exact ⟨rfl, rfl, rfl, rfl, rfl⟩
          · rename_i hd hf
            split at h
            · injection h with h; subst h; exact ⟨rfl, rfl, rfl, rfl, rfl⟩
            · rename_i e hl
              split at h
              · exact Option.noConfusion h
              · rename_i s2 heq2
                have q2 := ih _ (.invErr hd e) rfl _ heq2
                injection h with h
                subst h
                refine presMsg_trans (presMsg_trans ?_ q2) ?_
                · exact ⟨rfl, rfl, rfl, rfl, rfl⟩
                · exact ⟨rfl, rfl, rfl, rfl, rfl⟩

theorem invMsg_borrowed_shape (f : Nat) (s : ClientState) (hd : MsgHandler) (m : Message)
    (s' : ClientState) (hb : s.on_message.borrowed = true) (hc : s.crashed = false)
    (h : exec f s (.invMsg hd m) = some s') :
    s'.crashed = false ∧ s'.on_message.borrowed = true ∧
    s'.on_message.function = s.on_message.function ∧
    s'.queue = s.queue ∧ s'.msgLog = s.msgLog ++ [(hd.hid, m)] := by
  cases f with
  | zero => simp [exec] at h
  | succ f =>
    cases hd with
    | plain i =>
      simp only [exec, hc, Bool.false_eq_true, if_false] at h
      injection h with h
      subst h
      exact ⟨rfl, hb, rfl, rfl, rfl⟩
    | replacer i repl =>
      simp only [exec, hc, Bool.false_eq_true, if_false] at h
      cases f with
      | zero => simp [exec] at h
      | succ f =>
        simp only [exec, hc, Bool.false_eq_true, if_false, HCell.replaceImpl, hb, if_true] at h
        injection h with h
        subst h
        exact ⟨rfl, rfl, rfl, rfl, rfl⟩

theorem invErr_borrowed_shape (f : Nat) (s : ClientState) (hd : ErrHandler) (e : ErrVal)
    (s' : ClientState) (hb : s.on_error.borrowed = true) (hc : s.crashed = false)
    (h : exec f s (.invErr hd e) = some s') :
    PresMsg s s' ∧ s'.errLog = s.errLog ++ [(hd.hid, e)] ∧ s'.errorLatch = s.errorLatch ∧
      (s'.crashed = true ∨ (s'.crashed = false ∧ s'.on_error.borrowed = true ∧
        s'.on_error.function = s.on_error.function)) := by
  cases f with
  | zero => simp [exec] at h
  | succ f =>
    cases hd with
    | plain i =>
      simp only [exec, hc, Bool.false_eq_true, if_false] at h
      injection h with h
      subst h
      exact ⟨⟨rfl, rfl, rfl, rfl, rfl⟩, rfl, rfl, Or.inr ⟨rfl, hb, rfl⟩⟩
    | replacer i repl =>
      simp only [exec, hc, Bool.false_eq_true, if_false] at h
      cases f with
      | zero => simp [exec] at h
      | succ f =>
        simp only [exec, hc, Bool.false_eq_true, if_false, HCell.replaceImpl, hb, if_true,
          HCell.takeBorrow] at h
        injection h with h
        subst h
        exact ⟨⟨rfl, rfl, rfl, rfl, rfl⟩, rfl, rfl, Or.inl rfl⟩

theorem drain_plain : ∀ (q : List Message) (f : Nat) (s : ClientState) (k : Nat),
    s.queue = q → s.crashed = false →
    s.on_message = ⟨some (.plain k), false, none⟩ →
    q.length + 1 ≤ f →
    exec f s .drain =
      some { s with queue := [], msgLog := s.msgLog ++ q.map (fun m => (k, m)) } := by
  intro q
  induction q with
  | nil =>
    intro f s k hq hc hm hf
    obtain ⟨im, q0, el, om, oe, ml, elog, snt, cr⟩ := s
    simp only at hq hc hm
    subst hq hc hm
    cases f with
    | zero => omega
    | succ f =>
      simp [exec, HCell.takeBorrow, dropMsgRef, HCell.dropBorrow]
  | cons m rest ih =>
    intro f s k hq hc hm hf
    obtain ⟨im, q0, el, om, oe, ml, elog, snt, cr⟩ := s
    simp only at hq hc hm
    subst hq hc hm
    cases f with
    | zero => simp at hf
    | succ f =>
      cases f with
      | zero => simp at hf
      | succ f =>
        show exec (f + 1)
          { initMsg := im, queue := rest, errorLatch := el,
            on_message := ⟨some (.plain k), false, none⟩, on_error := oe,
            msgLog := ml ++ [(k, m)], errLog := elog, sent := snt, crashed := false }
          .drain = _
        rw [ih (f + 1) _ k rfl rfl rfl (by simp at hf; omega)]
        simp

theorem HCell.dropBorrow_borrowed {H : Type} (c : HCell H) :
    (c.dropBorrow).borrowed = false := by
  unfold HCell.dropBorrow; split <;> rfl

theorem HCell.dropBorrow_replacement {H : Type} (c : HCell H) :
    (c.dropBorrow).replacement = none := by
  unfold HCell.dropBorrow
  split
  · rfl
  · rename_i heq; simpa using heq

theorem drain_inv : ∀ (f : Nat) (s s' : ClientState),
    s.crashed = false → s.on_message.borrowed = false → s.on_message.replacement = none →
    exec f s .drain = some s' →
    s'.crashed = false ∧ s'.on_message.borrowed = false ∧ s'.on_message.replacement = none ∧
      (∀ hd, s'.on_message.function = some hd → s'.queue = []) ∧ PresErr s s' := by
  intro f
  induction f with
  | zero => intro s s' _ _ _ h; simp [exec] at h
  | succ f ih =>
    intro s s' hc hb hr h
    simp only [exec, hc, Bool.false_eq_true, if_false, HCell.takeBorrow, hb] at h
    split at h
    · -- no handler installed: loop exits at once
      rename_i heqf
      injection h with h
      subst h
      refine ⟨rfl, HCell.dropBorrow_borrowed _, HCell.dropBorrow_replacement _, ?_, ?_⟩
      · intro hd hh
        simp only [dropMsgRef, HCell.dropBorrow, hr] at hh
        rw [heqf] at hh
        exact Option.noConfusion hh
      · exact ⟨rfl, rfl, rfl, rfl, rfl⟩
    · rename_i hd heqf
      split at h
      · -- queue empty: loop exits
        rename_i heqq
        injection h with h
        subst h
        exact ⟨rfl, HCell.dropBorrow_borrowed _, HCell.dropBorrow_replacement _,
          fun _ _ => heqq, ⟨rfl, rfl, rfl, rfl, rfl⟩⟩
      · rename_i m rest heqq
        split at h
        · exact Option.noConfusion h
        · rename_i s2 heq2
          have shape := invMsg_borrowed_shape f _ hd m s2 (by rfl) (by rfl) heq2
          obtain ⟨sc2, sb2, _, _, _⟩ := shape
          have pres2 := exec_msgSide_presErr f _ (.invMsg hd m) rfl _ heq2
          have hrec := ih (dropMsgRef s2) s' sc2 (HCell.dropBorrow_borrowed _)
            (HCell.dropBorrow_replacement _) h
          obtain ⟨g1, g2, g3, g4, g5⟩ := hrec
          refine ⟨g1, g2, g3, g4, ?_⟩
          refine presErr_trans (presErr_trans (presErr_trans ?_ pres2) ?_) g5
          · exact ⟨rfl, rfl, rfl, rfl, rfl⟩
          · exact ⟨rfl, rfl, rfl, rfl, rfl⟩

theorem set_onmessage_plain (f : Nat) (s : ClientState) (k : Nat)
    (hc : s.crashed = false) (hb : s.on_message.borrowed = false)
    (hr : s.on_message.replacement = none)
    (hf : s.queue.length + 2 ≤ f) :
    exec f s (.setMsg (some (.plain k))) =
      some { s with on_message := ⟨some (.plain k), false, none⟩,
                    queue := [], msgLog := s.msgLog ++ s.queue.map (fun m => (k, m)) } := by
  obtain ⟨im, q0, el, ⟨fn, bo, rp⟩, oe, ml, elog, snt, cr⟩ := s
  simp only at hc hb hr hf
  subst hc hb hr
  cases f with
  | zero => simp at hf
  | succ f =>
    show exec f
      { initMsg := im, queue := q0, errorLatch := el,
        on_message := ⟨some (.plain k), false, none⟩, on_error := oe,
        msgLog := ml, errLog := elog, sent := snt, crashed := false }
      .drain = _
    rw [drain_plain q0 f _ k rfl rfl rfl (by omega)]

theorem dataToMessage_msgToRaw (m : Message) : dataToMessage (msgToRaw m) = some m := by
  cases m <;> rfl

theorem onMessageEvent_noHandler (f : Nat) (s : ClientState) (d : RawData) (m : Message)
    (hc : s.crashed = false) (hm : s.on_message = ⟨none, false, none⟩)
    (hd : dataToMessage d = some m) :
    onMessageEvent f s d = some { s with queue := s.queue ++ [m] } := by
  obtain ⟨im, q0, el, om, oe, ml, elog, snt, cr⟩ := s
  simp only at hc hm
  subst hc hm
  simp [onMessageEvent, HCell.takeBorrow, hd, dropMsgRef, HCell.dropBorrow]

theorem feedMessages_noHandler : ∀ (ms : List Message) (f : Nat) (s : ClientState),
    s.crashed = false → s.on_message = ⟨none, false, none⟩ →
    feedMessages f s (ms.map msgToRaw) = some { s with queue := s.queue ++ ms } := by
  intro ms
  induction ms with
  | nil => intro f s hc hm; simp [feedMessages]
  | cons m rest ih =>
    intro f s hc hm
    simp only [List.map_cons, feedMessages,
      onMessageEvent_noHandler f s (msgToRaw m) m hc hm (dataToMessage_msgToRaw m)]
    rw [ih f _ (by exact hc) (by exact hm)]
    simp

theorem set_onerror_plain_latched (f : Nat) (s : ClientState) (k : Nat) (e : ErrVal)
    (hc : s.crashed = false) (hb : s.on_error.borrowed = false)
    (hr : s.on_error.replacement = none)
    (hl : s.errorLatch = some e) (hf : 2 ≤ f) :
    exec f s (.setErr (some (.plain k))) =
      some { s with on_error := ⟨some (.plain k), false, none⟩, errorLatch := none,
                    errLog := s.errLog ++ [(k, e)] } := by
  obtain ⟨im, q0, el, om, ⟨fn, bo, rp⟩, ml, elog, snt, cr⟩ := s
  simp only at hc hb hr hl
  subst hc hb hr hl
  cases f with
  | zero => omega
  | succ f =>
    cases f with
    | zero => omega
    | succ f => rfl

theorem set_onerror_plain_empty (f : Nat) (s : ClientState) (k : Nat)
    (hc : s.crashed = false) (hb : s.on_error.borrowed = false)
    (hr : s.on_error.replacement = none)
    (hl : s.errorLatch = none) (hf : 1 ≤ f) :
    exec f s (.setErr (some (.plain k))) =
      some { s with on_error := ⟨some (.plain k), false, none⟩ } := by
  obtain ⟨im, q0, el, om, ⟨fn, bo, rp⟩, ml, elog, snt, cr⟩ := s
  simp only at hc hb hr hl
  subst hc hb hr hl
  cases f with
  | zero => omega
  | succ f => rfl

theorem onErrorEvent_noHandler (f : Nat) (s : ClientState) (e : ErrVal)
    (hc : s.crashed = false) (hm : s.on_error.function = none)
    (hb : s.on_error.borrowed = false) (hr : s.on_error.replacement = none) :
    onErrorEvent f s e = some { s with errorLatch := some e } := by
  obtain ⟨im, q0, el, om, ⟨fn, bo, rp⟩, ml, elog, snt, cr⟩ := s
  simp only at hc hm hb hr
  subst hc hm hb hr
  simp [onErrorEvent, HCell.takeBorrow, dropErrRef, HCell.dropBorrow]

end WsQueueWeb

namespace WsQueueWeb

theorem invMsg_borrowed_total (f : Nat) (s : ClientState) (hd : MsgHandler) (m : Message)
    (hb : s.on_message.borrowed = true) (hc : s.crashed = false) (hf : 2 ≤ f) :
    ∃ s', exec f s (.invMsg hd m) = some s' := by
  cases f with
  | zero => omega
  | succ f =>
    cases f with
    | zero => omega
    | succ f =>
      cases hd with
      | plain i =>
        exact ⟨{ s with msgLog := s.msgLog ++ [(i, m)] },
          by simp only [exec, hc, Bool.false_eq_true, if_false, MsgHandler.hid]⟩
      | replacer i repl =>
        exact ⟨{ s with
                  msgLog := s.msgLog ++ [(i, m)],
                  on_message := { function := s.on_message.function, borrowed := true,
                                  replacement := some (repl.map MsgHandler.plain) } },
          by simp only [exec, hc, Bool.false_eq_true, if_false, HCell.replaceImpl, hb,
            if_true, MsgHandler.hid]⟩

theorem invErr_borrowed_total (f : Nat) (s : ClientState) (hd : ErrHandler) (e : ErrVal)
    (hb : s.on_error.borrowed = true) (hc : s.crashed = false) (hf : 2 ≤ f) :
    ∃ s', exec f s (.invErr hd e) = some s' := by
  cases f with
  | zero => omega
  | succ f =>
    cases f with
    | zero => omega
    | succ f =>
      cases hd with
      | plain i =>
        exact ⟨{ s with errLog := s.errLog ++ [(i, e)] },
          by simp only [exec, hc, Bool.false_eq_true, if_false, ErrHandler.hid]⟩
      | replacer i repl =>
        exact ⟨{ s with
                  errLog := s.errLog ++ [(i, e)],
                  on_error := { function := s.on_error.function, borrowed := true,
                                replacement := some (repl.map ErrHandler.plain) },
                  crashed := true },
          by simp only [exec, hc, Bool.false_eq_true, if_false, HCell.replaceImpl, hb,
            if_true, HCell.takeBorrow, ErrHandler.hid]⟩

theorem onMessageEvent_eq_route (f : Nat) (s : ClientState) (d : RawData) (m : Message)
    (hc : s.crashed = false) (hd : dataToMessage d = some m) :
    onMessageEvent f s d = routeMessage f s m := by
  unfold onMessageEvent routeMessage
  rw [hc]
  simp only [Bool.false_eq_true, if_false, hd]

theorem routeMessage_spec (f : Nat) (s : ClientState) (m : Message)
    (hc : s.crashed = false) (hmb : s.on_message.borrowed = false)
    (hmr : s.on_message.replacement = none) (hf : 2 ≤ f) :
    ∃ s', routeMessage f s m = some s' ∧
      s'.errLog = s.errLog ∧ s'.errorLatch = s.errorLatch ∧ s'.on_error = s.on_error ∧
      s'.sent = s.sent ∧
      (s.on_message.function = none → s' = { s with queue := s.queue ++ [m] }) ∧
      (∀ hd, s.on_message.function = some hd →
        s'.msgLog = s.msgLog ++ [(hd.hid, m)] ∧ s'.queue = s.queue ∧
        s'.crashed = false) := by
  obtain ⟨im, q0, el, ⟨fnm, bm, rm⟩, oe, ml, elog, snt, cr⟩ := s
  simp only at hc hmb hmr
  subst hc hmb hmr
  cases fnm with
  | none =>
    refine ⟨_, rfl, rfl, rfl, rfl, rfl, fun _ => rfl, ?_⟩
    intro hd hh
    exact Option.noConfusion hh
  | some hd =>
    obtain ⟨s2, hs2⟩ := invMsg_borrowed_total f
      { initMsg := im, queue := q0, errorLatch := el,
        on_message := ⟨some hd, true, none⟩, on_error := oe,
        msgLog := ml, errLog := elog, sent := snt, crashed := false } hd m rfl rfl hf
    have shape := invMsg_borrowed_shape f _ hd m s2 rfl rfl hs2
    have pres := exec_msgSide_presErr f _ (.invMsg hd m) rfl _ hs2
    obtain ⟨sc2, sb2, sf2, sq2, sl2⟩ := shape
    obtain ⟨pl, po, pe, ps, pi⟩ := pres
    refine ⟨dropMsgRef s2, ?_, pe, pl, po, ps, ?_, ?_⟩
    · simp only [routeMessage, HCell.takeBorrow, Bool.false_eq_true, if_false]
      rw [show invokeMsg f
        { initMsg := im, queue := q0, errorLatch := el,
          on_message := ⟨some hd, true, none⟩, on_error := oe,
          msgLog := ml, errLog := elog, sent := snt, crashed := false } hd m = some s2
        from hs2]
    · intro hh
      exact Option.noConfusion hh
    · intro hd' hh
      injection hh with hh
      subst hh
      exact ⟨sl2, sq2, sc2⟩

theorem routeCloseError_spec (f : Nat) (s : ClientState) (e : ErrVal)
    (hc : s.crashed = false) (heb : s.on_error.borrowed = false)
    (her : s.on_error.replacement = none) (hf : 2 ≤ f) :
    ∃ s', routeCloseError f s e = some s' ∧
      s'.queue = s.queue ∧ s'.msgLog = s.msgLog ∧ s'.on_message = s.on_message ∧
      s'.sent = s.sent ∧
      (s.on_error.function = none → s' = { s with errorLatch := some e }) ∧
      (∀ hd, s.on_error.function = some hd →
        s'.errLog = s.errLog ++ [(hd.hid, e)] ∧ s'.errorLatch = s.errorLatch) := by
  obtain ⟨im, q0, el, om, ⟨fne, be, re⟩, ml, elog, snt, cr⟩ := s
  simp only at hc heb her
  subst hc heb her
  cases fne with
  | none =>
    refine ⟨_, rfl, rfl, rfl, rfl, rfl, fun _ => rfl, ?_⟩
    intro hd hh
    exact Option.noConfusion hh
  | some hd =>
    obtain ⟨s2, hs2⟩ := invErr_borrowed_total f
      { initMsg := im, queue := q0, errorLatch := el, on_message := om,
        on_error := ⟨some hd, true, none⟩,
        msgLog := ml, errLog := elog, sent := snt, crashed := false } hd e rfl rfl hf
    have shape := invErr_borrowed_shape f _ hd e s2 rfl rfl hs2
    obtain ⟨⟨pq, pom, pml, ps, pi⟩, sl2, slat, _⟩ := shape
    refine ⟨dropErrRef s2, ?_, pq, pml, pom, ps, ?_, ?_⟩
    · simp only [routeCloseError, HCell.takeBorrow, Bool.false_eq_true, if_false]
      rw [show invokeErr f
        { initMsg := im, queue := q0, errorLatch := el, on_message := om,
          on_error := ⟨some hd, true, none⟩,
          msgLog := ml, errLog := elog, sent := snt, crashed := false } hd e = some s2
        from hs2]
    · intro hh
      exact Option.noConfusion hh
    · intro hd' hh
      injection hh with hh
      subst hh
      exact ⟨sl2, slat⟩

/-- C4: a message handler that re-entrantly replaces itself via
`set_onmessage` during its own invocation causes no crash: the in-progress
delivery completes under the old handler, the replacement is parked and
applied when the invocation's borrow is released, and the next message
event is delivered to the new handler. -/
theorem C4_reentrant_set_onmessage_safe (s : ClientState) (i : Nat) (r : Option Nat)
    (t : String) (hc : s.crashed = false)
    (hm : s.on_message = ⟨some (.replacer i r), false, none⟩) :
    ∃ s', onMessageEvent 3 s (.jsString t) = some s' ∧
      s'.crashed = false ∧
      s'.msgLog = s.msgLog ++ [(i, Message.text t)] ∧
      s'.on_message = ⟨r.map MsgHandler.plain, false, none⟩ ∧
      ∀ (u : String) (j : Nat), r = some j →
        ∃ s2, onMessageEvent 3 s' (.jsString u) = some s2 ∧
          s2.msgLog = s'.msgLog ++ [(j, Message.text u)] ∧ s2.crashed = false := by
  obtain ⟨im, q0, el, om, oe, ml, elog, snt, cr⟩ := s
  simp only at hc hm
  subst hc hm
  refine ⟨_, rfl, rfl, rfl, rfl, ?_⟩
  intro u j hr
  subst hr
  exact ⟨_, rfl, rfl, rfl⟩

/-- Witness for C4: the statement at a concrete state holding a
self-replacing handler. -/
theorem C4_witness :
    ∃ s', onMessageEvent 3
        { initMsg := none, queue := [], errorLatch := none,
          on_message := ⟨some (.replacer 4 (some 8)), false, none⟩,
          on_error := ⟨none, false, none⟩, msgLog := [], errLog := [], sent := [],
          crashed := false } (.jsString "m1") = some s' ∧
      s'.crashed = false ∧
      s'.msgLog = [] ++ [(4, Message.text "m1")] ∧
      s'.on_message = ⟨(some 8).map MsgHandler.plain, false, none⟩ ∧
      ∀ (u : String) (j : Nat), (some 8 : Option Nat) = some j →
        ∃ s2, onMessageEvent 3 s' (.jsString u) = some s2 ∧
          s2.msgLog = s'.msgLog ++ [(j, Message.text u)] ∧ s2.crashed = false :=
  C4_reentrant_set_onmessage_safe _ 4 (some 8) "m1" rfl rfl

/-- C6: routing of close events. A clean close is routed through the
message path as `Message::Text(reason)` — delivered to the installed
message handler, else queued — and never touches the error-side state; an
unclean close, or a close event whose payload is not a `CloseEvent`, is
routed through the error path — delivered to the installed error handler,
else latched — and never touches the message-side state. -/
theorem C6_close_routing (s : ClientState) (reason : String) (e e2 : ErrVal)
    (hc : s.crashed = false) (hm : GoodCell s.on_message) (he : GoodCell s.on_error) :
    (∃ s', onCloseEvent 3 s (.closeEvent true reason e) = some s' ∧
      s'.errLog = s.errLog ∧ s'.errorLatch = s.errorLatch ∧ s'.on_error = s.on_error ∧
      (s.on_message.function = none →
        s' = { s with queue := s.queue ++ [Message.text reason] }) ∧
      (∀ hd, s.on_message.function = some hd →
        s'.msgLog = s.msgLog ++ [(hd.hid, Message.text reason)] ∧
        s'.queue = s.queue)) ∧
    (∃ s', onCloseEvent 3 s (.closeEvent false reason e) = some s' ∧
      s'.queue = s.queue ∧ s'.msgLog = s.msgLog ∧ s'.on_message = s.on_message ∧
      (s.on_error.function = none → s' = { s with errorLatch := some e }) ∧
      (∀ hd, s.on_error.function = some hd →
        s'.errLog = s.errLog ++ [(hd.hid, e)])) ∧
    (∃ s', onCloseEvent 3 s (.otherEvent e2) = some s' ∧
      s'.queue = s.queue ∧ s'.msgLog = s.msgLog ∧ s'.on_message = s.on_message ∧
      (s.on_error.function = none → s' = { s with errorLatch := some e2 }) ∧
      (∀ hd, s.on_error.function = some hd →
        s'.errLog = s.errLog ++ [(hd.hid, e2)])) := by
  obtain ⟨hmb, hmr⟩ := hm
  obtain ⟨heb, her⟩ := he
  have hclean : onCloseEvent 3 s (.closeEvent true reason e) =
      routeMessage 3 s (Message.text reason) := by
    unfold onCloseEvent
    rw [hc]
    rfl
  have hunclean : onCloseEvent 3 s (.closeEvent false reason e) =
      routeCloseError 3 s e := by
    unfold onCloseEvent
    rw [hc]
    rfl
  have hother : onCloseEvent 3 s (.otherEvent e2) = routeCloseError 3 s e2 := by
    unfold onCloseEvent
    rw [hc]
    rfl
  refine ⟨?_, ?_, ?_⟩
  · rw [hclean]
    obtain ⟨s', h1, h2, h3, h4, h5, h6, h7⟩ :=
      routeMessage_spec 3 s (Message.text reason) hc hmb hmr (by omega)
    exact ⟨s', h1, h2, h3, h4, h6, fun hd hh => ⟨(h7 hd hh).1, (h7 hd hh).2.1⟩⟩
  · rw [hunclean]
    obtain ⟨s', h1, h2, h3, h4, h5, h6, h7⟩ :=
      routeCloseError_spec 3 s e hc heb her (by omega)
    exact ⟨s', h1, h2, h3, h4, h6, fun hd hh => (h7 hd hh).1⟩
  · rw [hother]
    obtain ⟨s', h1, h2, h3, h4, h5, h6, h7⟩ :=
      routeCloseError_spec 3 s e2 hc heb her (by omega)
    exact ⟨s', h1, h2, h3, h4, h6, fun hd hh => (h7 hd hh).1⟩

/-- Witness for C6: the statement at a fresh client. -/
theorem C6_witness :
    (∃ s', onCloseEvent 3 (WebSocketClient.new none) (.closeEvent true "bye" 4) = some s' ∧
      s'.errLog = (WebSocketClient.new none).errLog ∧
      s'.errorLatch = (WebSocketClient.new none).errorLatch ∧
      s'.on_error = (WebSocketClient.new none).on_error ∧
      ((WebSocketClient.new none).on_message.function = none →
        s' = { WebSocketClient.new none with
               queue := (WebSocketClient.new none).queue ++ [Message.text "bye"] }) ∧
      (∀ hd, (WebSocketClient.new none).on_message.function = some hd →
        s'.msgLog = (WebSocketClient.new none).msgLog ++ [(hd.hid, Message.text "bye")] ∧
        s'.queue = (WebSocketClient.new none).queue)) ∧
    (∃ s', onCloseEvent 3 (WebSocketClient.new none) (.closeEvent false "bye" 4) = some s' ∧
      s'.queue = (WebSocketClient.new none).queue ∧
      s'.msgLog = (WebSocketClient.new none).msgLog ∧
      s'.on_message = (WebSocketClient.new none).on_message ∧
      ((WebSocketClient.new none).on_error.function = none →
        s' = { WebSocketClient.new none with errorLatch := some 4 }) ∧
      (∀ hd, (WebSocketClient.new none).on_error.function = some hd →
        s'.errLog = (WebSocketClient.new none).errLog ++ [(hd.hid, 4)])) ∧
    (∃ s', onCloseEvent 3 (WebSocketClient.new none) (.otherEvent 5) = some s' ∧
      s'.queue = (WebSocketClient.new none).queue ∧
      s'.msgLog = (WebSocketClient.new none).msgLog ∧
      s'.on_message = (WebSocketClient.new none).on_message ∧
      ((WebSocketClient.new none).on_error.function = none →
        s' = { WebSocketClient.new none with errorLatch := some 5 }) ∧
      (∀ hd, (WebSocketClient.new none).on_error.function = some hd →
        s'.errLog = (WebSocketClient.new none).errLog ++ [(hd.hid, 5)])) :=
  C6_close_routing (WebSocketClient.new none) "bye" 4 5 rfl ⟨rfl, rfl⟩ ⟨rfl, rfl⟩

/-- C7: on a raw message event, an `ArrayBuffer` payload becomes
`Message::Binary` and a string payload becomes `Message::Text`, each
routed through the message slot/queue; any other payload shape is
silently discarded — the state is exactly unchanged. -/
theorem C7_message_translation (s : ClientState) (b : List Nat) (t : String)
    (hc : s.crashed = false) (hm : GoodCell s.on_message) :
    onMessageEvent 3 s .other = some s ∧
    (∃ s', onMessageEvent 3 s (.arrayBuffer b) = some s' ∧
      s'.errLog = s.errLog ∧ s'.errorLatch = s.errorLatch ∧ s'.on_error = s.on_error ∧
      s'.sent = s.sent ∧
      (s.on_message.function = none →
        s' = { s with queue := s.queue ++ [Message.binary b] }) ∧
      (∀ hd, s.on_message.function = some hd →
        s'.msgLog = s.msgLog ++ [(hd.hid, Message.binary b)] ∧ s'.queue = s.queue ∧
        s'.crashed = false)) ∧
    (∃ s', onMessageEvent 3 s (.jsString t) = some s' ∧
      s'.errLog = s.errLog ∧ s'.errorLatch = s.errorLatch ∧ s'.on_error = s.on_error ∧
      s'.sent = s.sent ∧
      (s.on_message.function = none →
        s' = { s with queue := s.queue ++ [Message.text t] }) ∧
      (∀ hd, s.on_message.function = some hd →
        s'.msgLog = s.msgLog ++ [(hd.hid, Message.text t)] ∧ s'.queue = s.queue ∧
        s'.crashed = false)) := by
  obtain ⟨hmb, hmr⟩ := hm
  refine ⟨?_, ?_, ?_⟩
  · obtain ⟨im, q0, el, ⟨fnm, bm, rm⟩, oe, ml, elog, snt, cr⟩ := s
    simp only at hc hmb hmr
    subst hc hmb hmr
    rfl
  · rw [onMessageEvent_eq_route 3 s (.arrayBuffer b) (Message.binary b) hc rfl]
    exact routeMessage_spec 3 s (Message.binary b) hc hmb hmr (by omega)
  · rw [onMessageEvent_eq_route 3 s (.jsString t) (Message.text t) hc rfl]
    exact routeMessage_spec 3 s (Message.text t) hc hmb hmr (by omega)

/-- Witness for C7: the statement at a fresh client. -/
theorem C7_witness :
    onMessageEvent 3 (WebSocketClient.new none) .other = some (WebSocketClient.new none) ∧
    (∃ s', onMessageEvent 3 (WebSocketClient.new none) (.arrayBuffer [1, 2]) = some s' ∧
      s'.errLog = (WebSocketClient.new none).errLog ∧
      s'.errorLatch = (WebSocketClient.new none).errorLatch ∧
      s'.on_error = (WebSocketClient.new none).on_error ∧
      s'.sent = (WebSocketClient.new none).sent ∧
      ((WebSocketClient.new none).on_message.function = none →
        s' = { WebSocketClient.new none with
               queue := (WebSocketClient.new none).queue ++ [Message.binary [1, 2]] }) ∧
      (∀ hd, (WebSocketClient.new none).on_message.function = some hd →
        s'.msgLog = (WebSocketClient.new none).msgLog ++ [(hd.hid, Message.binary [1, 2])] ∧
        s'.queue = (WebSocketClient.new none).queue ∧ s'.crashed = false)) ∧
    (∃ s', onMessageEvent 3 (WebSocketClient.new none) (.jsString "hi") = some s' ∧
      s'.errLog = (WebSocketClient.new none).errLog ∧
      s'.errorLatch = (WebSocketClient.new none).errorLatch ∧
      s'.on_error = (WebSocketClient.new none).on_error ∧
      s'.sent = (WebSocketClient.new none).sent ∧
      ((WebSocketClient.new none).on_message.function = none →
        s' = { WebSocketClient.new none with
               queue := (WebSocketClient.new none).queue ++ [Message.text "hi"] }) ∧
      (∀ hd, (WebSocketClient.new none).on_message.function = some hd →
        s'.msgLog = (WebSocketClient.new none).msgLog ++ [(hd.hid, Message.text "hi")] ∧
        s'.queue = (WebSocketClient.new none).queue ∧ s'.crashed = false)) :=
  C7_message_translation (WebSocketClient.new none) [1, 2] "hi" rfl ⟨rfl, rfl⟩

/-- C1 counterexample: from a fresh client, fire error 1 then error 2 with
no handler installed, then install a recording handler (id 0). The full
delivery log is `[(0, 2)]`: the second error was delivered and the first
was dropped, refuting "the latch keeps E1 and E2 is never delivered". -/
theorem C1_counterexample :
    (((onErrorEvent 2 (WebSocketClient.new none) 1).bind
        (fun s1 => onErrorEvent 2 s1 2)).bind
      (fun s2 => set_onerror 3 s2 (some (ErrHandler.plain 0)))).map ClientState.errLog
      = some [(0, 2)] := by decide

/-- C1 (amended): the error cell is overwritten on every recording, so with
errors E1 then E2 and no handler installed in between, the cell keeps E2
(last pending error wins); installing a handler afterwards delivers E2
exactly once — a further install delivers nothing — and E1 is never
delivered. -/
theorem C1_last_error_wins (e1 e2 : ErrVal) (k k2 : Nat) (s : ClientState)
    (hc : s.crashed = false) (he : s.on_error = ⟨none, false, none⟩)
    (hl : s.errorLatch = none) :
    ∃ s1, onErrorEvent 2 s e1 = some s1 ∧ s1.errorLatch = some e1 ∧
    ∃ s2, onErrorEvent 2 s1 e2 = some s2 ∧ s2.errorLatch = some e2 ∧
    ∃ s3, set_onerror 3 s2 (some (.plain k)) = some s3 ∧
      s3.errLog = s.errLog ++ [(k, e2)] ∧ s3.errorLatch = none ∧
    ∃ s4, set_onerror 3 s3 (some (.plain k2)) = some s4 ∧ s4.errLog = s3.errLog := by
  obtain ⟨im, q0, el, om, oe, ml, elog, snt, cr⟩ := s
  simp only at hc he hl
  subst hc he hl
  exact ⟨_, rfl, rfl, _, rfl, rfl, _, rfl, rfl, rfl, _, rfl, rfl⟩

/-- Witness for C1: the amended statement at a fresh client with errors
7 then 8 and handler ids 0 and 9. -/
theorem C1_witness :
    ∃ s1, onErrorEvent 2 (WebSocketClient.new none) 7 = some s1 ∧
      s1.errorLatch = some 7 ∧
    ∃ s2, onErrorEvent 2 s1 8 = some s2 ∧ s2.errorLatch = some 8 ∧
    ∃ s3, set_onerror 3 s2 (some (.plain 0)) = some s3 ∧
      s3.errLog = (WebSocketClient.new none).errLog ++ [(0, 8)] ∧ s3.errorLatch = none ∧
    ∃ s4, set_onerror 3 s3 (some (.plain 9)) = some s4 ∧ s4.errLog = s3.errLog :=
  C1_last_error_wins 7 8 0 9 (WebSocketClient.new none) rfl rfl rfl

/-- C2: installing a new error handler from inside the running error
handler does crash. The re-entrant `set_onerror` parks the replacement
(`HandlerCell::replace` defers), but then unconditionally calls
`HandlerCell::borrow_mut` on the function slot that the in-progress
invocation still holds — a `RefCell` double-borrow, i.e. a runtime panic.
The state after the error event has `crashed = true`. -/
theorem C2_reentrant_set_onerror_crashes :
    ((set_onerror 5 (WebSocketClient.new none) (some (ErrHandler.replacer 5 (some 6)))).bind
      (fun s1 => onErrorEvent 5 s1 3)).map ClientState.crashed = some true := by decide

/-- C3: all messages that arrive while no handler is installed are queued;
installing a recording handler then delivers exactly those messages, to
that handler, in arrival order, with nothing queued afterwards —
synchronously during the install call. -/
theorem C3_queued_messages_delivered_in_order (ms : List Message) (k : Nat) :
    ∃ s1, feedMessages 2 (WebSocketClient.new none) (ms.map msgToRaw) = some s1 ∧
      s1.queue = ms ∧ s1.msgLog = [] ∧
    ∃ s2, set_onmessage (ms.length + 2) s1 (some (.plain k)) = some s2 ∧
      s2.msgLog = ms.map (fun m => (k, m)) ∧ s2.queue = [] ∧ s2.crashed = false := by
  have hfeed := feedMessages_noHandler ms 2 (WebSocketClient.new none) rfl rfl
  have hset := set_onmessage_plain (ms.length + 2)
    { WebSocketClient.new none with queue := [] ++ ms } k rfl rfl rfl (by simp)
  refine ⟨_, hfeed, by simp [WebSocketClient.new], rfl, _, hset, ?_, rfl, rfl⟩
  simp [WebSocketClient.new]

/-- C5 counterexample: with messages "a" then "b" queued and no handler,
installing a handler (id 1) that re-entrantly installs a fresh handler
(id 7) during its first invocation does NOT leave "b" queued: the drain
continues and delivers "b" to the new handler immediately, ending with an
empty queue — refuting "the elements not yet delivered stay queued". -/
theorem C5_counterexample :
    ((feedMessages 2 (WebSocketClient.new none)
        [RawData.jsString "a", RawData.jsString "b"]).bind
      (fun s => set_onmessage 5 s (some (MsgHandler.replacer 1 (some 7))))).map
        (fun s => (s.queue, s.msgLog))
      = some ([], [(1, Message.text "a"), (7, Message.text "b")]) := by decide

/-- C5 (amended): a mid-drain replacement never corrupts order. If the
handler invoked on the first queued element installs `None`, the drain
stops and the remaining elements stay queued in their original order; if
it installs a new handler, the drain does not stop — the remaining
elements are delivered to the new handler immediately, in their original
order, leaving the queue empty. -/
theorem C5_mid_drain_replacement (m1 : Message) (rest : List Message) (i j : Nat)
    (s : ClientState) (hc : s.crashed = false)
    (hm : s.on_message = ⟨none, false, none⟩) (hq : s.queue = m1 :: rest) :
    (∃ s', set_onmessage (rest.length + 4) s (some (.replacer i none)) = some s' ∧
      s'.msgLog = s.msgLog ++ [(i, m1)] ∧ s'.queue = rest ∧
      s'.on_message = ⟨none, false, none⟩ ∧ s'.crashed = false) ∧
    (∃ s2, set_onmessage (rest.length + 4) s (some (.replacer i (some j))) = some s2 ∧
      s2.msgLog = s.msgLog ++ [(i, m1)] ++ rest.map (fun m => (j, m)) ∧ s2.queue = [] ∧
      s2.on_message = ⟨some (.plain j), false, none⟩ ∧ s2.crashed = false) := by
  obtain ⟨im, q0, el, om, oe, ml, elog, snt, cr⟩ := s
  simp only at hc hm hq
  subst hc hm hq
  constructor
  · exact ⟨_, rfl, rfl, rfl, rfl, rfl⟩
  · refine ⟨{ initMsg := im, queue := [], errorLatch := el,
              on_message := ⟨some (.plain j), false, none⟩, on_error := oe,
              msgLog := ml ++ [(i, m1)] ++ rest.map (fun m => (j, m)), errLog := elog,
              sent := snt, crashed := false }, ?_, rfl, rfl, rfl, rfl⟩
    show exec (rest.length + 2)
      { initMsg := im, queue := rest, errorLatch := el,
        on_message := ⟨some (.plain j), false, none⟩, on_error := oe,
        msgLog := ml ++ [(i, m1)], errLog := elog, sent := snt, crashed := false }
      .drain = _
    exact drain_plain rest (rest.length + 2) _ j rfl rfl rfl (by omega)

/-- Witness for C5: the amended statement at a concrete two-element queue. -/
theorem C5_witness :
    (∃ s', set_onmessage ([Message.binary [2]].length + 4)
        { initMsg := none, queue := [Message.text "x", Message.binary [2]],
          errorLatch := none, on_message := ⟨none, false, none⟩,
          on_error := ⟨none, false, none⟩, msgLog := [], errLog := [], sent := [],
          crashed := false } (some (.replacer 0 none)) = some s' ∧
      s'.msgLog = [] ++ [(0, Message.text "x")] ∧ s'.queue = [Message.binary [2]] ∧
      s'.on_message = ⟨none, false, none⟩ ∧ s'.crashed = false) ∧
    (∃ s2, set_onmessage ([Message.binary [2]].length + 4)
        { initMsg := none, queue := [Message.text "x", Message.binary [2]],
          errorLatch := none, on_message := ⟨none, false, none⟩,
          on_error := ⟨none, false, none⟩, msgLog := [], errLog := [], sent := [],
          crashed := false } (some (.replacer 0 (some 1))) = some s2 ∧
      s2.msgLog = [] ++ [(0, Message.text "x")] ++
        [Message.binary [2]].map (fun m => (1, m)) ∧ s2.queue = [] ∧
      s2.on_message = ⟨some (.plain 1), false, none⟩ ∧ s2.crashed = false) :=
  C5_mid_drain_replacement (Message.text "x") [Message.binary [2]] 0 1 _ rfl rfl rfl

/-- C9: installing `None` as the message handler delivers nothing and
leaves the rest of the state untouched, and every message that arrives
afterwards is appended to the queue in arrival order rather than dropped. -/
theorem C9_set_onmessage_none_suspends (s : ClientState)
    (hc : s.crashed = false) (hb : s.on_message.borrowed = false)
    (hr : s.on_message.replacement = none) :
    ∃ s', set_onmessage 2 s none = some s' ∧
      s' = { s with on_message := ⟨none, false, none⟩ } ∧
      ∀ ms : List Message, feedMessages 2 s' (ms.map msgToRaw) =
        some { s' with queue := s'.queue ++ ms } := by
  obtain ⟨im, q0, el, ⟨fn, bo, rp⟩, oe, ml, elog, snt, cr⟩ := s
  simp only at hc hb hr
  subst hc hb hr
  exact ⟨_, rfl, rfl, fun ms => feedMessages_noHandler ms 2 _ rfl rfl⟩

/-- Witness for C9: the statement at a fresh client. -/
theorem C9_witness :
    ∃ s', set_onmessage 2 (WebSocketClient.new none) none = some s' ∧
      s' = { WebSocketClient.new none with on_message := ⟨none, false, none⟩ } ∧
      ∀ ms : List Message, feedMessages 2 s' (ms.map msgToRaw) =
        some { s' with queue := s'.queue ++ ms } :=
  C9_set_onmessage_none_suspends (WebSocketClient.new none) rfl rfl rfl

theorem set_onmessage_pres_sent (f : Nat) (s : ClientState) (nh : Option MsgHandler)
    (s' : ClientState) (h : set_onmessage f s nh = some s') : s'.sent = s.sent :=
  (exec_msgSide_presErr f s (.setMsg nh) rfl s' h).2.2.2.1

theorem set_onerror_pres_sent (f : Nat) (s : ClientState) (nh : Option ErrHandler)
    (s' : ClientState) (h : set_onerror f s nh = some s') : s'.sent = s.sent :=
  (exec_errSide_presMsg f s (.setErr nh) rfl s' h).2.2.2.1

theorem routeMessage_pres_sent (f : Nat) (s : ClientState) (m : Message)
    (s' : ClientState) (h : routeMessage f s m = some s') : s'.sent = s.sent := by
  unfold routeMessage at h
  split at h
  · injection h with h; subst h; rfl
  · split at h
    · dsimp only at h
      split at h
      · exact Option.noConfusion h
      · rename_i s2 heq
        injection h with h; subst h
        exact (exec_msgSide_presErr f _ (.invMsg _ _) rfl _ heq).2.2.2.1
    · injection h with h; subst h; rfl

theorem routeCloseError_pres_sent (f : Nat) (s : ClientState) (e : ErrVal)
    (s' : ClientState) (h : routeCloseError f s e = some s') : s'.sent = s.sent := by
  unfold routeCloseError at h
  split at h
  · injection h with h; subst h; rfl
  · split at h
    · dsimp only at h
      split at h
      · exact Option.noConfusion h
      · rename_i s2 heq
        injection h with h; subst h
        exact (exec_errSide_presMsg f _ (.invErr _ _) rfl _ heq).2.2.2.1
    · injection h with h; subst h; rfl

theorem onMessageEvent_pres_sent (f : Nat) (s : ClientState) (d : RawData)
    (s' : ClientState) (h : onMessageEvent f s d = some s') : s'.sent = s.sent := by
  unfold onMessageEvent at h
  split at h
  · injection h with h; subst h; rfl
  · split at h
    · injection h with h; subst h; rfl
    · split at h
      · injection h with h; subst h; rfl
      · split at h
        · dsimp only at h
          split at h
          · exact Option.noConfusion h
          · rename_i s2 heq
            injection h with h; subst h
            exact (exec_msgSide_presErr f _ (.invMsg _ _) rfl _ heq).2.2.2.1
        · injection h with h; subst h; rfl

theorem onErrorEvent_pres_sent (f : Nat) (s : ClientState) (e : ErrVal)
    (s' : ClientState) (h : onErrorEvent f s e = some s') : s'.sent = s.sent := by
  unfold onErrorEvent at h
  split at h
  · injection h with h; subst h; rfl
  · split at h
    · injection h with h; subst h; rfl
    · split at h
      · dsimp only at h
        split at h
        · exact Option.noConfusion h
        · rename_i s2 heq
          injection h with h; subst h
          exact (exec_errSide_presMsg f _ (.invErr _ _) rfl _ heq).2.2.2.1
      · injection h with h; subst h; rfl

theorem onCloseEvent_pres_sent (f : Nat) (s : ClientState) (ev : RawCloseEvent)
    (s' : ClientState) (h : onCloseEvent f s ev = some s') : s'.sent = s.sent := by
  unfold onCloseEvent at h
  split at h
  · injection h with h; subst h; rfl
  · split at h
    · exact routeMessage_pres_sent _ _ _ _ h
    · exact routeCloseError_pres_sent _ _ _ _ h
    · exact routeCloseError_pres_sent _ _ _ _ h

theorem onOpenEvent_spec (f : Nat) (s : ClientState) (m : Message) (r : Option ErrVal)
    (hc : s.crashed = false) (hb : s.on_error.borrowed = false)
    (hr : s.on_error.replacement = none) (him : s.initMsg = some m) (hf : 2 ≤ f) :
    ∃ s', onOpenEvent f s r = some s' ∧ s'.sent = s.sent ++ [m] ∧
      s'.queue = s.queue ∧ s'.msgLog = s.msgLog ∧ s'.on_message = s.on_message ∧
      (r = none → s'.errLog = s.errLog ∧ s'.errorLatch = s.errorLatch ∧
        s'.on_error = s.on_error ∧ s'.crashed = false) ∧
      (∀ err, r = some err →
        (s.on_error.function = none →
          s' = { s with sent := s.sent ++ [m], errorLatch := some err }) ∧
        (∀ hd, s.on_error.function = some hd →
          s'.errLog = s.errLog ++ [(hd.hid, err)])) := by
  obtain ⟨im, q0, el, om, ⟨fne, be, re⟩, ml, elog, snt, cr⟩ := s
  simp only at hc hb hr him
  subst hc hb hr him
  cases r with
  | none =>
    refine ⟨_, rfl, rfl, rfl, rfl, rfl, fun _ => ⟨rfl, rfl, rfl, rfl⟩, ?_⟩
    intro err hre
    exact Option.noConfusion hre
  | some err =>
    cases fne with
    | none =>
      refine ⟨_, rfl, rfl, rfl, rfl, rfl, ?_, ?_⟩
      · intro hre; exact Option.noConfusion hre
      · intro err' hre
        injection hre with hre
        subst hre
        exact ⟨fun _ => rfl, fun hd hh => Option.noConfusion hh⟩
    | some hd =>
      obtain ⟨s2, hs2⟩ := invErr_borrowed_total f
        { initMsg := some m, queue := q0, errorLatch := el, on_message := om,
          on_error := ⟨some hd, true, none⟩,
          msgLog := ml, errLog := elog, sent := snt ++ [m], crashed := false } hd err
        rfl rfl hf
      have shape := invErr_borrowed_shape f _ hd err s2 rfl rfl hs2
      obtain ⟨⟨pq, pom, pml, ps, pi⟩, sl2, slat, _⟩ := shape
      refine ⟨dropErrRef s2, ?_, ps, pq, pml, pom, ?_, ?_⟩
      · simp only [onOpenEvent, HCell.takeBorrow, Bool.false_eq_true, if_false]
        rw [show invokeErr f
          { initMsg := some m, queue := q0, errorLatch := el, on_message := om,
            on_error := ⟨some hd, true, none⟩,
            msgLog := ml, errLog := elog, sent := snt ++ [m], crashed := false } hd err
          = some s2 from hs2]
      · intro hre; exact Option.noConfusion hre
      · intro err' hre
        injection hre with hre
        subst hre
        refine ⟨fun hh => Option.noConfusion hh, ?_⟩
        intro hd' hh
        injection hh with hh
        subst hh
        exact sl2

/-- C8: the init message is sent exactly at the open event. A fresh client
has sent nothing; if `init_message` was not supplied the open event is a
no-op (no open listener is subscribed); if `init_message = m` was supplied,
one open event records exactly one transport send of `m`, a successful
send leaves the error side untouched, and a synchronous send failure is
routed invoke-or-latch through the error path; and no message, error or
close event and no handler install ever sends anything. -/
theorem C8_init_message_sent_once_at_open (im : Option Message) (s : ClientState)
    (m : Message) (r : Option ErrVal) (hc : s.crashed = false)
    (hb : s.on_error.borrowed = false) (hr : s.on_error.replacement = none) :
    (WebSocketClient.new im).sent = [] ∧
    (s.initMsg = none → onOpenEvent 3 s r = some s) ∧
    (s.initMsg = some m →
      ∃ s', onOpenEvent 3 s r = some s' ∧ s'.sent = s.sent ++ [m] ∧
        s'.queue = s.queue ∧ s'.msgLog = s.msgLog ∧ s'.on_message = s.on_message ∧
        (r = none → s'.errLog = s.errLog ∧ s'.errorLatch = s.errorLatch ∧
          s'.on_error = s.on_error ∧ s'.crashed = false) ∧
        (∀ err, r = some err →
          (s.on_error.function = none →
            s' = { s with sent := s.sent ++ [m], errorLatch := some err }) ∧
          (∀ hd, s.on_error.function = some hd →
            s'.errLog = s.errLog ++ [(hd.hid, err)]))) ∧
    (∀ f d s', onMessageEvent f s d = some s' → s'.sent = s.sent) ∧
    (∀ f e s', onErrorEvent f s e = some s' → s'.sent = s.sent) ∧
    (∀ f ev s', onCloseEvent f s ev = some s' → s'.sent = s.sent) ∧
    (∀ f nh s', set_onmessage f s nh = some s' → s'.sent = s.sent) ∧
    (∀ f nh s', set_onerror f s nh = some s' → s'.sent = s.sent) := by
  refine ⟨rfl, ?_, ?_, ?_, ?_, ?_, ?_, ?_⟩
  · intro him
    unfold onOpenEvent
    rw [hc, him]
    rfl
  · intro him
    exact onOpenEvent_spec 3 s m r hc hb hr him (by omega)
  · intro f d s' h; exact onMessageEvent_pres_sent f s d s' h
  · intro f e s' h; exact onErrorEvent_pres_sent f s e s' h
  · intro f ev s' h; exact onCloseEvent_pres_sent f s ev s' h
  · intro f nh s' h; exact set_onmessage_pres_sent f s nh s' h
  · intro f nh s' h; exact set_onerror_pres_sent f s nh s' h

/-- Witness for C8: the statement at a fresh client constructed with
init message `"hello"` and a successful send at open. -/
theorem C8_witness :
    (WebSocketClient.new (some (Message.text "hello"))).sent = [] ∧
    ((WebSocketClient.new (some (Message.text "hello"))).initMsg = none →
      onOpenEvent 3 (WebSocketClient.new (some (Message.text "hello"))) none =
        some (WebSocketClient.new (some (Message.text "hello")))) ∧
    ((WebSocketClient.new (some (Message.text "hello"))).initMsg =
        some (Message.text "hello") →
      ∃ s', onOpenEvent 3 (WebSocketClient.new (some (Message.text "hello"))) none =
          some s' ∧
        s'.sent = (WebSocketClient.new (some (Message.text "hello"))).sent ++
          [Message.text "hello"] ∧
        s'.queue = (WebSocketClient.new (some (Message.text "hello"))).queue ∧
        s'.msgLog = (WebSocketClient.new (some (Message.text "hello"))).msgLog ∧
        s'.on_message = (WebSocketClient.new (some (Message.text "hello"))).on_message ∧
        ((none : Option ErrVal) = none →
          s'.errLog = (WebSocketClient.new (some (Message.text "hello"))).errLog ∧
          s'.errorLatch =
            (WebSocketClient.new (some (Message.text "hello"))).errorLatch ∧
          s'.on_error = (WebSocketClient.new (some (Message.text "hello"))).on_error ∧
          s'.crashed = false) ∧
        (∀ err, (none : Option ErrVal) = some err →
          ((WebSocketClient.new (some (Message.text "hello"))).on_error.function =
              none →
            s' = { WebSocketClient.new (some (Message.text "hello")) with
                   sent := (WebSocketClient.new (some (Message.text "hello"))).sent ++
                     [Message.text "hello"],
                   errorLatch := some err }) ∧
          (∀ hd, (WebSocketClient.new (some (Message.text "hello"))).on_error.function =
              some hd →
            s'.errLog = (WebSocketClient.new (some (Message.text "hello"))).errLog ++
              [(hd.hid, err)]))) ∧
    (∀ f d s', onMessageEvent f (WebSocketClient.new (some (Message.text "hello"))) d =
      some s' → s'.sent = (WebSocketClient.new (some (Message.text "hello"))).sent) ∧
    (∀ f e s', onErrorEvent f (WebSocketClient.new (some (Message.text "hello"))) e =
      some s' → s'.sent = (WebSocketClient.new (some (Message.text "hello"))).sent) ∧
    (∀ f ev s', onCloseEvent f (WebSocketClient.new (some (Message.text "hello"))) ev =
      some s' → s'.sent = (WebSocketClient.new (some (Message.text "hello"))).sent) ∧
    (∀ f nh s', set_onmessage f (WebSocketClient.new (some (Message.text "hello"))) nh =
      some s' → s'.sent = (WebSocketClient.new (some (Message.text "hello"))).sent) ∧
    (∀ f nh s', set_onerror f (WebSocketClient.new (some (Message.text "hello"))) nh =
      some s' → s'.sent = (WebSocketClient.new (some (Message.text "hello"))).sent) :=
  C8_init_message_sent_once_at_open (some (Message.text "hello"))
    (WebSocketClient.new (some (Message.text "hello"))) (Message.text "hello") none
    rfl rfl rfl

end WsQueueWeb

namespace WsQueueWeb

theorem onErrorEvent_eq_route (f : Nat) (s : ClientState) (e : ErrVal)
    (hc : s.crashed = false) : onErrorEvent f s e = routeCloseError f s e := by
  unfold onErrorEvent routeCloseError
  rw [hc]
  rfl

theorem report_error_eq_route (f : Nat) (s : ClientState) (e : ErrVal)
    (hc : s.crashed = false) : report_error f s e = routeCloseError f s e := by
  unfold report_error routeCloseError
  rw [hc]
  rfl

theorem onCloseEvent_clean_eq (f : Nat) (s : ClientState) (reason : String) (ae : ErrVal)
    (hc : s.crashed = false) :
    onCloseEvent f s (.closeEvent true reason ae) = routeMessage f s (Message.text reason) := by
  unfold onCloseEvent
  rw [hc]
  rfl

theorem onCloseEvent_unclean_eq (f : Nat) (s : ClientState) (reason : String) (ae : ErrVal)
    (hc : s.crashed = false) :
    onCloseEvent f s (.closeEvent false reason ae) = routeCloseError f s ae := by
  unfold onCloseEvent
  rw [hc]
  rfl

theorem onCloseEvent_other_eq (f : Nat) (s : ClientState) (ae : ErrVal)
    (hc : s.crashed = false) :
    onCloseEvent f s (.otherEvent ae) = routeCloseError f s ae := by
  unfold onCloseEvent
  rw [hc]
  rfl

theorem onMessageEvent_other_id (f : Nat) (s : ClientState) (hc : s.crashed = false)
    (hmb : s.on_message.borrowed = false) (hmr : s.on_message.replacement = none) :
    onMessageEvent f s .other = some s := by
  obtain ⟨im, q0, el, ⟨fnm, bm, rm⟩, oe, ml, elog, snt, cr⟩ := s
  simp only at hc hmb hmr
  subst hc hmb hmr
  rfl

theorem onOpenEvent_none_id (f : Nat) (s : ClientState) (r : Option ErrVal)
    (hc : s.crashed = false) (him : s.initMsg = none) :
    onOpenEvent f s r = some s := by
  unfold onOpenEvent
  rw [hc, him]
  rfl

theorem onOpenEvent_sendok (f : Nat) (s : ClientState) (m : Message)
    (hc : s.crashed = false) (hb : s.on_error.borrowed = false)
    (hr : s.on_error.replacement = none) (him : s.initMsg = some m) :
    onOpenEvent f s none = some { s with sent := s.sent ++ [m] } := by
  obtain ⟨im, q0, el, om, ⟨fne, be, re⟩, ml, elog, snt, cr⟩ := s
  simp only at hc hb hr him
  subst hc hb hr him
  rfl

theorem onOpenEvent_eq_route (f : Nat) (s : ClientState) (m : Message) (err : ErrVal)
    (hc : s.crashed = false) (hb : s.on_error.borrowed = false)
    (him : s.initMsg = some m) :
    onOpenEvent f s (some err) =
      routeCloseError f { s with sent := s.sent ++ [m] } err := by
  obtain ⟨im, q0, el, om, ⟨fne, be, re⟩, ml, elog, snt, cr⟩ := s
  simp only at hc hb him
  subst hc hb him
  rfl

theorem routeMessage_inv (f : Nat) (s s' : ClientState) (m : Message)
    (hc : s.crashed = false) (hgm : GoodCell s.on_message) (hge : GoodCell s.on_error)
    (hmi : ∀ hd, s.on_message.function = some hd → s.queue = [])
    (h : routeMessage f s m = some s') : Inv s' := by
  obtain ⟨hmb, hmr⟩ := hgm
  obtain ⟨heb, her⟩ := hge
  obtain ⟨im, q0, el, ⟨fnm, bm, rm⟩, ⟨fne, be, re⟩, ml, elog, snt, cr⟩ := s
  simp only at hc hmb hmr heb her hmi
  subst hc hmb hmr heb her
  cases fnm with
  | none =>
    simp only [routeMessage, HCell.takeBorrow, Bool.false_eq_true, if_false,
      dropMsgRef, HCell.dropBorrow] at h
    injection h with h
    subst h
    intro _
    exact ⟨⟨rfl, rfl⟩, ⟨rfl, rfl⟩, fun hd hh => Option.noConfusion hh⟩
  | some hd =>
    simp only [routeMessage, HCell.takeBorrow, Bool.false_eq_true, if_false] at h
    split at h
    · exact Option.noConfusion h
    · rename_i s2 heq2
      injection h with h
      subst h
      have shape := invMsg_borrowed_shape f _ hd m s2 rfl rfl heq2
      obtain ⟨sc2, sb2, sf2, sq2, sl2⟩ := shape
      have pres := exec_msgSide_presErr f _ (.invMsg hd m) rfl _ heq2
      obtain ⟨pl, po, pe, ps, pi⟩ := pres
      intro _
      refine ⟨⟨HCell.dropBorrow_borrowed _, HCell.dropBorrow_replacement _⟩, ?_, ?_⟩
      · show GoodCell s2.on_error
        rw [po]
        exact ⟨rfl, rfl⟩
      · intro hd' hh
        show s2.queue = []
        rw [sq2]
        exact hmi hd rfl

theorem routeCloseError_inv (f : Nat) (s s' : ClientState) (e : ErrVal)
    (hc : s.crashed = false) (hgm : GoodCell s.on_message) (hge : GoodCell s.on_error)
    (hmi : ∀ hd, s.on_message.function = some hd → s.queue = [])
    (h : routeCloseError f s e = some s') : Inv s' := by
  obtain ⟨hmb, hmr⟩ := hgm
  obtain ⟨heb, her⟩ := hge
  obtain ⟨im, q0, el, ⟨fnm, bm, rm⟩, ⟨fne, be, re⟩, ml, elog, snt, cr⟩ := s
  simp only at hc hmb hmr heb her hmi
  subst hc hmb hmr heb her
  cases fne with
  | none =>
    simp only [routeCloseError, HCell.takeBorrow, Bool.false_eq_true, if_false,
      dropErrRef, HCell.dropBorrow] at h
    injection h with h
    subst h
    intro _
    exact ⟨⟨rfl, rfl⟩, ⟨rfl, rfl⟩, fun hd hh => hmi hd hh⟩
  | some hd =>
    simp only [routeCloseError, HCell.takeBorrow, Bool.false_eq_true, if_false] at h
    split at h
    · exact Option.noConfusion h
    · rename_i s2 heq2
      injection h with h
      subst h
      have shape := invErr_borrowed_shape f _ hd e s2 rfl rfl heq2
      obtain ⟨⟨pq, pom, pml, ps, pi⟩, sl2, slat, hdisj⟩ := shape
      intro hcr'
      have hq2 : s2.crashed = false := hcr'
      cases hdisj with
      | inl hcr2 =>
        rw [hcr2] at hq2
        exact Bool.noConfusion hq2
      | inr hgood =>
        obtain ⟨sc2, sb2, sf2⟩ := hgood
        refine ⟨?_, ⟨HCell.dropBorrow_borrowed _, HCell.dropBorrow_replacement _⟩, ?_⟩
        · show GoodCell s2.on_message
          rw [pom]
          exact ⟨rfl, rfl⟩
        · intro hd' hh
          show s2.queue = []
          rw [pq]
          have hh2 : s2.on_message.function = some hd' := hh
          rw [pom] at hh2
          exact hmi hd' hh2

theorem set_onerror_inv (f : Nat) (s s' : ClientState) (nh : Option ErrHandler)
    (hc : s.crashed = false) (hgm : GoodCell s.on_message) (hge : GoodCell s.on_error)
    (hmi : ∀ hd, s.on_message.function = some hd → s.queue = [])
    (h : exec f s (.setErr nh) = some s') : Inv s' := by
  obtain ⟨hmb, hmr⟩ := hgm
  obtain ⟨heb, her⟩ := hge
  obtain ⟨im, q0, el, ⟨fnm, bm, rm⟩, ⟨fne, be, re⟩, ml, elog, snt, cr⟩ := s
  simp only at hc hmb hmr heb her hmi
  subst hc hmb hmr heb her
  cases f with
  | zero => simp [exec] at h
  | succ f2 =>
    cases nh with
    | none =>
      simp only [exec, Bool.false_eq_true, if_false, HCell.replaceImpl,
        HCell.takeBorrow, dropErrRef, HCell.dropBorrow] at h
      injection h with h
      subst h
      intro _
      exact ⟨⟨rfl, rfl⟩, ⟨rfl, rfl⟩, fun hd hh => hmi hd hh⟩
    | some hd =>
      cases el with
      | none =>
        simp only [exec, Bool.false_eq_true, if_false, HCell.replaceImpl,
          HCell.takeBorrow, dropErrRef, HCell.dropBorrow] at h
        injection h with h
        subst h
        intro _
        exact ⟨⟨rfl, rfl⟩, ⟨rfl, rfl⟩, fun hd' hh => hmi hd' hh⟩
      | some e =>
        simp only [exec, Bool.false_eq_true, if_false, HCell.replaceImpl,
          HCell.takeBorrow] at h
        split at h
        · exact Option.noConfusion h
        · rename_i s2 heq2
          injection h with h
          subst h
          have shape := invErr_borrowed_shape f2 _ hd e s2 rfl rfl heq2
          obtain ⟨⟨pq, pom, pml, ps, pi⟩, sl2, slat, hdisj⟩ := shape
          intro hcr'
          have hq2 : s2.crashed = false := hcr'
          cases hdisj with
          | inl hcr2 =>
            rw [hcr2] at hq2
            exact Bool.noConfusion hq2
          | inr hgood =>
            refine ⟨?_, ⟨HCell.dropBorrow_borrowed _, HCell.dropBorrow_replacement _⟩, ?_⟩
            · show GoodCell s2.on_message
              rw [pom]
              exact ⟨rfl, rfl⟩
            · intro hd' hh
              show s2.queue = []
              rw [pq]
              have hh2 : s2.on_message.function = some hd' := hh
              rw [pom] at hh2
              exact hmi hd' hh2

theorem applyOp_crashed (f : Nat) (s : ClientState) (op : OpInput) (s' : ClientState)
    (hcr : s.crashed = true) (h : applyOp f s op = some s') : s' = s := by
  cases op with
  | openEv r =>
    simp [applyOp, onOpenEvent, hcr] at h
    exact h.symm
  | msgEv d =>
    simp [applyOp, onMessageEvent, hcr] at h
    exact h.symm
  | errEv e =>
    simp [applyOp, onErrorEvent, hcr] at h
    exact h.symm
  | closeEv ev =>
    simp [applyOp, onCloseEvent, hcr] at h
    exact h.symm
  | setMsg nh =>
    cases f with
    | zero => simp [applyOp, set_onmessage, exec] at h
    | succ f2 =>
      simp [applyOp, set_onmessage, exec, hcr] at h
      exact h.symm
  | setErr nh =>
    cases f with
    | zero => simp [applyOp, set_onerror, exec] at h
    | succ f2 =>
      simp [applyOp, set_onerror, exec, hcr] at h
      exact h.symm
  | sendOp p r =>
    simp [applyOp, clientSend, hcr] at h
    exact h.symm

theorem applyOp_inv (f : Nat) (s s' : ClientState) (op : OpInput)
    (hi : Inv s) (h : applyOp f s op = some s') : Inv s' := by
  by_cases hcr : s.crashed = true
  · rw [applyOp_crashed f s op s' hcr h]
    exact hi
  · have hc : s.crashed = false := by
      cases hcb : s.crashed
      · rfl
      · exact absurd hcb hcr
    obtain ⟨hgm, hge, hmi⟩ := hi hc
    cases op with
    | msgEv d =>
      cases d with
      | arrayBuffer b =>
        rw [show applyOp f s (.msgEv (.arrayBuffer b)) =
            onMessageEvent f s (.arrayBuffer b) from rfl,
          onMessageEvent_eq_route f s (.arrayBuffer b) (Message.binary b) hc rfl] at h
        exact routeMessage_inv f s s' _ hc hgm hge hmi h
      | jsString t =>
        rw [show applyOp f s (.msgEv (.jsString t)) =
            onMessageEvent f s (.jsString t) from rfl,
          onMessageEvent_eq_route f s (.jsString t) (Message.text t) hc rfl] at h
        exact routeMessage_inv f s s' _ hc hgm hge hmi h
      | other =>
        rw [show applyOp f s (.msgEv .other) = onMessageEvent f s .other from rfl,
          onMessageEvent_other_id f s hc hgm.1 hgm.2] at h
        injection h with h
        subst h
        exact hi
    | errEv e =>
      rw [show applyOp f s (.errEv e) = onErrorEvent f s e from rfl,
        onErrorEvent_eq_route f s e hc] at h
      exact routeCloseError_inv f s s' e hc hgm hge hmi h
    | closeEv ev =>
      cases ev with
      | closeEvent wc reason ae =>
        cases wc with
        | true =>
          rw [show applyOp f s (.closeEv (.closeEvent true reason ae)) =
              onCloseEvent f s (.closeEvent true reason ae) from rfl,
            onCloseEvent_clean_eq f s reason ae hc] at h
          exact routeMessage_inv f s s' _ hc hgm hge hmi h
        | false =>
          rw [show applyOp f s (.closeEv (.closeEvent false reason ae)) =
              onCloseEvent f s (.closeEvent false reason ae) from rfl,
            onCloseEvent_unclean_eq f s reason ae hc] at h
          exact routeCloseError_inv f s s' ae hc hgm hge hmi h
      | otherEvent ae =>
        rw [show applyOp f s (.closeEv (.otherEvent ae)) =
            onCloseEvent f s (.otherEvent ae) from rfl,
          onCloseEvent_other_eq f s ae hc] at h
        exact routeCloseError_inv f s s' ae hc hgm hge hmi h
    | openEv r =>
      cases him : s.initMsg with
      | none =>
        rw [show applyOp f s (.openEv r) = onOpenEvent f s r from rfl,
          onOpenEvent_none_id f s r hc him] at h
        injection h with h
        subst h
        exact hi
      | some m =>
        cases r with
        | none =>
          rw [show applyOp f s (.openEv none) = onOpenEvent f s none from rfl,
            onOpenEvent_sendok f s m hc hge.1 hge.2 him] at h
          injection h with h
          subst h
          intro _
          exact ⟨hgm, hge, hmi⟩
        | some err =>
          rw [show applyOp f s (.openEv (some err)) = onOpenEvent f s (some err) from rfl,
            onOpenEvent_eq_route f s m err hc hge.1 him] at h
          exact routeCloseError_inv f { s with sent := s.sent ++ [m] } s' err
            hc hgm hge hmi h
    | setMsg nh =>
      cases f with
      | zero =>
        rw [show applyOp 0 s (.setMsg nh) = exec 0 s (.setMsg nh) from rfl] at h
        simp [exec] at h
      | succ f2 =>
        rw [show applyOp (f2 + 1) s (.setMsg nh) = exec (f2 + 1) s (.setMsg nh) from rfl] at h
        simp only [exec, hc, Bool.false_eq_true, if_false, HCell.replaceImpl, hgm.1,
          if_true] at h
        obtain ⟨g1, g2, g3, g4, ⟨pl, po, pe, ps, pi⟩⟩ :=
          drain_inv f2 _ s' (by rfl) (by rfl) (by exact hgm.2) h
        intro _
        refine ⟨⟨g2, g3⟩, ?_, g4⟩
        show GoodCell s'.on_error
        rw [po]
        exact hge
    | setErr nh =>
      rw [show applyOp f s (.setErr nh) = exec f s (.setErr nh) from rfl] at h
      exact set_onerror_inv f s s' nh hc hgm hge hmi h
    | sendOp p r =>
      cases r with
      | none =>
        rw [show applyOp f s (.sendOp p none) = clientSend f s p none from rfl] at h
        simp only [clientSend, hc, Bool.false_eq_true, if_false] at h
        injection h with h
        subst h
        intro _
        exact ⟨hgm, hge, hmi⟩
      | some err =>
        rw [show applyOp f s (.sendOp p (some err)) = clientSend f s p (some err) from rfl] at h
        simp only [clientSend, hc, Bool.false_eq_true, if_false] at h
        rw [report_error_eq_route f _ err (by rfl)] at h
        exact routeCloseError_inv f _ s' err (by rfl) (by exact hgm) (by exact hge)
          (by exact hmi) h

theorem reachable_inv (s : ClientState) (h : Reachable s) : Inv s := by
  induction h with
  | init im =>
    intro _
    exact ⟨⟨rfl, rfl⟩, ⟨rfl, rfl⟩, fun hd hh => rfl⟩
  | step fuel op hr hstep ih =>
    exact applyOp_inv fuel _ _ op ih hstep

/-- C10 (implicit invariant): in every reachable quiescent state that has
not crashed, an installed message handler implies an empty pending queue —
`set_onmessage` drains the queue completely before returning, and messages
arriving while a handler is installed are delivered directly, bypassing
the queue. -/
theorem C10_handler_implies_empty_queue (s : ClientState) (hr : Reachable s)
    (hc : s.crashed = false) (hd : MsgHandler)
    (hf : s.on_message.function = some hd) : s.queue = [] :=
  ((reachable_inv s hr) hc).2.2 hd hf

/-- Witness for C10: after installing a handler on a fresh client, the
queue is empty. -/
theorem C10_witness :
    ({ initMsg := none, queue := [], errorLatch := none,
       on_message := ⟨some (.plain 0), false, none⟩, on_error := ⟨none, false, none⟩,
       msgLog := [], errLog := [], sent := [], crashed := false } : ClientState).queue
      = [] :=
  C10_handler_implies_empty_queue _
    (Reachable.step 3 (.setMsg (some (.plain 0))) (Reachable.init none) (by decide))
    rfl (.plain 0) rfl

end WsQueueWeb
